import Mathlib

/-!
Verification development for the departure logout-menu launcher.

The definitions below are a shallow embedding of the program core:

  * the configuration data model (src/config/mod.rs),
  * the theme color resolution pipeline (src/theme/mod.rs),
  * the action layout, keybind dispatch, confirmation dialog and
    action execution logic (src/ui/mod.rs).

External effects (the file system, spawned shell commands, the
serde_json parser) are modelled as explicit parameters; machine
integers (u32) are modelled as Nat; Rust Result values are modelled
as Except.  String manipulation is modelled over List Char with the
ASCII semantics of the concrete inputs that appear in the theorems
(Rust trim / to_lowercase are Unicode-aware, Lean Char.isWhitespace
and Char.toLower are ASCII-aware; all inputs considered here are
ASCII).
-/

namespace Departure

/-- Model of a parsed structured document (a serde_json::Value).
Numbers are modelled as integers: the color pipeline only ever reads
string payloads and object fields, never numeric payloads. -/
inductive Json where
  | null
  | bool (b : Bool)
  | num (n : Int)
  | str (s : String)
  | arr (elems : List Json)
  | obj (fields : List (String × Json))

/-- serde_json Value::get with a string index: field lookup on an
object, none on every other document kind. -/
def Json.get : Json → String → Option Json
  | .obj fields, key => fields.lookup key
  | _, _ => none

/-- serde_json Value::as_str. -/
def Json.as_str : Json → Option String
  | .str s => some s
  | _ => none

/-! ## Configuration data model (src/config/mod.rs) -/

/-- src/config/mod.rs lines 22-29. -/
structure ManualColors where
  background : String
  primary : String
  secondary : String
  text : String
  danger : String
deriving DecidableEq

/-- The compiled-in default palette, src/config/mod.rs lines 130-140. -/
def ManualColors.default : ManualColors :=
  { background := "rgba(30, 30, 46, 0.8)"
    primary := "#89b4fa"
    secondary := "#74c7ec"
    text := "#cdd6f4"
    danger := "#f38ba8" }

/-- src/config/mod.rs lines 13-20; the PathBuf is modelled as a String. -/
structure ThemeConfig where
  source : String
  manual_colors : Option ManualColors
  file_path : Option String
  command : Option String
  watch_file : Bool
deriving DecidableEq

/-- src/config/mod.rs lines 31-38. -/
structure LayoutConfig where
  layout_type : String
  button_size : Nat
  button_spacing : Nat
  margin : Nat
  columns : Option Nat
deriving DecidableEq

/-- src/config/mod.rs lines 48-56. -/
structure ActionConfig where
  name : String
  command : String
  icon : String
  keybind : Option String
  confirm : Bool
  danger : Bool
deriving DecidableEq

/-! ## Theme pipeline data (src/theme/mod.rs) -/

/-- src/theme/mod.rs lines 11-18. -/
structure ThemeColors where
  background : String
  primary : String
  secondary : String
  text : String
  danger : String
deriving DecidableEq

/-- One constructor per distinct anyhow! error site of the theme
module; the names follow the taxonomy of the specification. -/
inductive ThemeError where
  | UnknownSource (name : String)
  | MissingManualColors
  | MissingFilePath
  | FileNotFound (path : String)
  | MissingCommand
  | CommandFailed (stderr : String)
  | IoError
deriving DecidableEq

/-! ## Rust string primitives, modelled over List Char -/

/-- Rust str::trim (ASCII whitespace model). -/
def rust_trim (l : List Char) : List Char :=
  ((l.dropWhile Char.isWhitespace).reverse.dropWhile Char.isWhitespace).reverse

/-- Split a character list at every newline; the resulting list always
has one more piece than there are newlines. -/
def split_newlines : List Char → List (List Char)
  | [] => [[]]
  | c :: rest =>
    if c = '\n' then [] :: split_newlines rest
    else
      match split_newlines rest with
      | [] => [[c]]
      | l :: ls => (c :: l) :: ls

/-- Remove one trailing carriage return. -/
def strip_cr (l : List Char) : List Char :=
  if l.getLast? = some '\r' then l.dropLast else l

/-- Rust str::lines: pieces between newlines; every piece that was
terminated by a newline loses one trailing carriage return; a final
empty piece (empty input or input ending in a newline) is dropped. -/
def rust_lines (s : String) : List (List Char) :=
  let parts := split_newlines s.toList
  (parts.take (parts.length - 1)).map strip_cr ++
    (match parts.getLast? with
     | some [] => []
     | some l => [l]
     | none => [])

/-- Rust str::split_once with pattern character, on the equals sign:
the pieces before and after the first occurrence, if any. -/
def split_once_eq : List Char → Option (List Char × List Char)
  | [] => none
  | c :: rest =>
    if c = '=' then some ([], rest)
    else
      match split_once_eq rest with
      | none => none
      | some (k, v) => some (c :: k, v)

/-- Rust str::trim_matches with a character pattern: strip every
leading and trailing occurrence. -/
def trim_matches (c : Char) (l : List Char) : List Char :=
  ((l.dropWhile (· = c)).reverse.dropWhile (· = c)).reverse

/-- The single-quote character, written by code point. -/
def squote : Char := Char.ofNat 39

/-- Rust str::to_lowercase (ASCII model). -/
def lower_chars (l : List Char) : List Char := l.map Char.toLower

/-- Rust String::to_lowercase on a Lean String (ASCII model). -/
def rust_to_lowercase (s : String) : String := String.mk (lower_chars s.toList)

/-! ## ColorExtractor (src/theme/mod.rs lines 89-161) -/

/-- The body of the key loop of extract_color (src/theme/mod.rs lines
114-126) for one candidate key: a direct string value, else the
string payload of a nested "hex" field, else nothing. -/
def resolve_key (json : Json) (key : String) : Option String :=
  match json.get key with
  | none => none
  | some value =>
    match value.as_str with
    | some s => some s
    | none =>
      match value.get "hex" with
      | none => none
      | some hex => hex.as_str

/-- extract_color, src/theme/mod.rs lines 113-128: first candidate key
that resolves wins, else the default. -/
def extract_color (json : Json) : List String → String → String
  | [], dflt => dflt
  | key :: keys, dflt =>
    match resolve_key json key with
    | some s => s
    | none => extract_color json keys dflt

/-- The flat branch of parse_json_colors, src/theme/mod.rs lines
104-110. -/
def parse_flat_colors (json : Json) : ThemeColors :=
  { background := extract_color json ["background"] "rgba(30, 30, 46, 0.8)"
    primary := extract_color json ["primary"] "#89b4fa"
    secondary := extract_color json ["secondary"] "#74c7ec"
    text := extract_color json ["text"] "#cdd6f4"
    danger := extract_color json ["danger"] "#f38ba8" }

/-- parse_json_colors, src/theme/mod.rs lines 89-111: a document with
a "colors" object that itself has a "primary" entry is a nested theme
export; anything else takes the flat branch.  The Rust function
returns Result but has no error path, so it is embedded as total. -/
def parse_json_colors (json : Json) : ThemeColors :=
  match json.get "colors" with
  | some colors =>
    match colors.get "primary" with
    | some _ =>
      { background := extract_color colors ["surface", "background"] "rgba(30, 30, 46, 0.8)"
        primary := extract_color colors ["primary"] "#89b4fa"
        secondary := extract_color colors ["secondary", "tertiary"] "#74c7ec"
        text := extract_color colors ["on_surface", "on_background", "text"] "#cdd6f4"
        danger := extract_color colors ["error", "danger"] "#f38ba8" }
    | none => parse_flat_colors json
  | none => parse_flat_colors json

/-- Line processing of parse_simple_colors, src/theme/mod.rs lines
139-147: trim, skip empty and comment lines, split at the first
equals sign, lowercase and trim the key, trim the value and strip
double then single quotes. -/
def line_binding (raw : List Char) : Option (List Char × List Char) :=
  let line := rust_trim raw
  if line = [] then none
  else if line.head? = some '#' then none
  else
    match split_once_eq line with
    | none => none
    | some (key, value) =>
      some (lower_chars (rust_trim key),
            trim_matches squote (trim_matches '"' (rust_trim value)))

/-- The key match of parse_simple_colors, src/theme/mod.rs lines
149-156: a recognized key overwrites its field, anything else is
ignored. -/
def set_recognized (colors : ThemeColors) (key value : List Char) : ThemeColors :=
  if key = "background".toList then { colors with background := String.mk value }
  else if key = "primary".toList then { colors with primary := String.mk value }
  else if key = "secondary".toList then { colors with secondary := String.mk value }
  else if key = "text".toList then { colors with text := String.mk value }
  else if key = "danger".toList then { colors with danger := String.mk value }
  else colors

/-- One iteration of the parse_simple_colors loop, src/theme/mod.rs
lines 139-157: skipped and unsplittable lines leave the colors
unchanged, otherwise the recognized-key match runs. -/
def apply_line (colors : ThemeColors) (line : List Char) : ThemeColors :=
  match line_binding line with
  | none => colors
  | some (key, value) => set_recognized colors key value

/-- parse_simple_colors, src/theme/mod.rs lines 130-161: fields start
at the built-in defaults and recognized lines overwrite them.  The
Rust function returns Result but has no error path, so it is embedded
as total. -/
def parse_simple_colors (content : String) : ThemeColors :=
  (rust_lines content).foldl apply_line
    { background := "rgba(30, 30, 46, 0.8)"
      primary := "#89b4fa"
      secondary := "#74c7ec"
      text := "#cdd6f4"
      danger := "#f38ba8" }

/-- The shared extraction entry used by the file and command sources
(src/theme/mod.rs lines 80-86 and 180-186): if serde_json parsing
succeeded, take the structured path, otherwise the line-based path.
The serde_json parse outcome on the raw text is passed explicitly. -/
def extract_colors (parsed : Option Json) (content : String) : ThemeColors :=
  match parsed with
  | some json => parse_json_colors json
  | none => parse_simple_colors content

/-! ## ColorSourceResolver (src/theme/mod.rs lines 30-187) -/

/-- The outcome of running a shell command with captured output
(std::process::Command::output).  A none stdout models output bytes
that are not valid UTF-8. -/
structure CmdOutput where
  success : Bool
  stdout : Option String
  stderr : String

/-- The external world as seen by the theme resolver: file existence,
file reads (none models a read error), the serde_json parser, and
shell command execution. -/
structure Env where
  file_exists : String → Bool
  read_file : String → Option String
  parse_json : String → Option Json
  sh_output : String → CmdOutput

/-- The ThemeColors built field-by-field from a ManualColors value
(the construction of src/theme/mod.rs lines 44-50 and 61-67). -/
def theme_colors_of_manual (colors : ManualColors) : ThemeColors :=
  { background := colors.background
    primary := colors.primary
    secondary := colors.secondary
    text := colors.text
    danger := colors.danger }

/-- get_manual_colors, src/theme/mod.rs lines 40-51. -/
def get_manual_colors (config : ThemeConfig) : Except ThemeError ThemeColors :=
  match config.manual_colors with
  | none => .error .MissingManualColors
  | some colors => .ok (theme_colors_of_manual colors)

/-- get_system_colors, src/theme/mod.rs lines 53-68: an explicit stub
that always succeeds with the compiled-in default palette. -/
def get_system_colors : Except ThemeError ThemeColors :=
  .ok (theme_colors_of_manual ManualColors.default)

/-- get_file_colors, src/theme/mod.rs lines 70-87. -/
def get_file_colors (env : Env) (config : ThemeConfig) : Except ThemeError ThemeColors :=
  match config.file_path with
  | none => .error .MissingFilePath
  | some path =>
    if env.file_exists path then
      match env.read_file path with
      | none => .error .IoError
      | some content => .ok (extract_colors (env.parse_json content) content)
    else .error (.FileNotFound path)

/-- get_command_colors, src/theme/mod.rs lines 163-187. -/
def get_command_colors (env : Env) (config : ThemeConfig) : Except ThemeError ThemeColors :=
  match config.command with
  | none => .error .MissingCommand
  | some command =>
    let output := env.sh_output command
    if output.success then
      match output.stdout with
      | none => .error .IoError
      | some stdout => .ok (extract_colors (env.parse_json stdout) stdout)
    else .error (.CommandFailed output.stderr)

/-- get_colors, src/theme/mod.rs lines 30-38: dispatch on the source
tag. -/
def get_colors (env : Env) (config : ThemeConfig) : Except ThemeError ThemeColors :=
  match config.source with
  | "manual" => get_manual_colors config
  | "system" => get_system_colors
  | "file" => get_file_colors env config
  | "command" => get_command_colors env config
  | _ => .error (.UnknownSource config.source)

/-! ## KeybindDispatcher (src/ui/mod.rs lines 314-351) -/

/-- A pressed key as seen by the key handler: the gdk key name (which
may be absent) and whether the keyval is gdk Key::Escape.  For the
real escape key the name is some "Escape" and the flag is true. -/
structure Key where
  name : Option String
  is_escape : Bool

/-- The possible outcomes of one key press, one per return path of
the connect_key_pressed closure. -/
inductive DispatchOutcome where
  | Execute (action : ActionConfig)
  | RequestConfirmation (action : ActionConfig)
  | Terminate
  | Ignored
deriving DecidableEq

/-- The outcome of one key press together with the actions that were
handed to execute_action during the press. -/
structure DispatchResult where
  outcome : DispatchOutcome
  executed : List ActionConfig
deriving DecidableEq

/-- The action scan of the key handler, src/ui/mod.rs lines 324-337:
first action in configured order whose lowercased keybind equals the
lowercased key name. -/
def find_binding (actions : List ActionConfig) (key_str : String) : Option ActionConfig :=
  actions.find? (fun action =>
    match action.keybind with
    | some keybind => rust_to_lowercase keybind == key_str
    | none => false)

/-- The connect_key_pressed closure of setup_keyboard_shortcuts,
src/ui/mod.rs lines 320-347.  A matched confirm-requiring action only
logs that confirmation is required (the key path wires no dialog) and
stops: that branch executes nothing and is the RequestConfirmation
outcome.  The escape check runs only after the scan found no match. -/
def key_pressed_handler (actions : List ActionConfig) (key : Key) : DispatchResult :=
  let matched :=
    match key.name with
    | some key_name => find_binding actions (rust_to_lowercase key_name)
    | none => none
  match matched with
  | some action =>
    if action.confirm then { outcome := .RequestConfirmation action, executed := [] }
    else { outcome := .Execute action, executed := [action] }
  | none =>
    if key.is_escape then { outcome := .Terminate, executed := [] }
    else { outcome := .Ignored, executed := [] }

/-! ## ActionExecutor (src/ui/mod.rs lines 293-312) -/

/-- The outcome of execute_action as the specification names it. -/
inductive ExecutionOutcome where
  | success
  | Failed (reason : String)
deriving DecidableEq

/-- What one call to execute_action did: the command strings handed to
sh -c spawn, whether app.quit was invoked, and the outcome. -/
structure ExecEffects where
  spawned : List String
  quit : Bool
  outcome : ExecutionOutcome
deriving DecidableEq

/-- execute_action, src/ui/mod.rs lines 293-312: spawn the action
command through sh -c without waiting; on spawn success call app.quit;
on spawn failure log and continue.  The spawn operation is passed
explicitly, returning either unit or an error description. -/
def execute_action (spawn : String → Except String Unit) (action : ActionConfig) : ExecEffects :=
  match spawn action.command with
  | .ok _ => { spawned := [action.command], quit := true, outcome := .success }
  | .error e => { spawned := [action.command], quit := false, outcome := .Failed e }

/-! ## ConfirmationGate (src/ui/mod.rs lines 243-291)

The confirmation dialog of show_confirmation_dialog is embedded as the
two-state machine the specification describes: presenting the dialog
for an action is the AwaitingConfirmation state, a click on its Cancel
button closes it with no side effect, and a click on its confirm
button hands the pending action to execute_action and closes it.
Events that have no corresponding widget in a state (a confirm click
while no dialog is shown, a new request while one is pending) leave
the state unchanged: no such signal is wired in the source. -/

inductive ConfState where
  | Idle
  | AwaitingConfirmation (action : ActionConfig)
deriving DecidableEq

inductive ConfEvent where
  | RequestConfirmation (action : ActionConfig)
  | Confirm
  | Cancel
deriving DecidableEq

/-- One gate transition: the next state and the actions handed to the
executor by the transition. -/
def gate_step : ConfState → ConfEvent → ConfState × List ActionConfig
  | .Idle, .RequestConfirmation action => (.AwaitingConfirmation action, [])
  | .AwaitingConfirmation _, .Cancel => (.Idle, [])
  | .AwaitingConfirmation action, .Confirm => (.Idle, [action])
  | state, _ => (state, [])

/-- Run the gate from Idle over a list of events, collecting every
executor invocation in order. -/
def gate_run (events : List ConfEvent) : ConfState × List ActionConfig :=
  events.foldl
    (fun (acc : ConfState × List ActionConfig) event =>
      let next := gate_step acc.1 event
      (next.1, acc.2 ++ next.2))
    (.Idle, [])

/-! ## ActionLayoutPlanner, grid branch (src/ui/mod.rs lines 141-160) -/

variable {α : Type}

/-- One iteration of the create_grid_layout loop: when the column
counter is zero a fresh row is appended to the container, the current
action is appended to the last row, and the counter advances modulo
the column count.  A zero column count makes the Rust remainder
operation panic, modelled as none. -/
def grid_step (columns : Nat) (state : Option (List (List α) × Nat)) (action : α) :
    Option (List (List α) × Nat) :=
  match state with
  | none => none
  | some (rows, current_column) =>
    let rows1 := if current_column = 0 then rows ++ [[]] else rows
    let rows2 := rows1.dropLast ++ [rows1.getLastD [] ++ [action]]
    if columns = 0 then none
    else some (rows2, (current_column + 1) % columns)

/-- create_grid_layout, src/ui/mod.rs lines 141-160: the column count
is the configured value or 3, and the loop runs over the actions in
configured order.  The result is the list of rows of the container,
or none when the loop panics. -/
def create_grid_layout (layout : LayoutConfig) (actions : List α) : Option (List (List α)) :=
  let columns := layout.columns.getD 3
  (actions.foldl (grid_step columns) (some ([], 0))).map Prod.fst

/-! ## Sample values used by witnesses and counterexamples -/

/-- The default action list, src/config/mod.rs lines 64-113. -/
def lock_action : ActionConfig :=
  { name := "Lock", command := "hyprlock", icon := "system-lock-screen",
    keybind := some "l", confirm := false, danger := false }

def logout_action : ActionConfig :=
  { name := "Logout", command := "hyprctl dispatch exit", icon := "system-log-out",
    keybind := some "e", confirm := true, danger := false }

def suspend_action : ActionConfig :=
  { name := "Suspend", command := "systemctl suspend", icon := "system-suspend",
    keybind := some "s", confirm := false, danger := false }

def hibernate_action : ActionConfig :=
  { name := "Hibernate", command := "systemctl hibernate", icon := "system-suspend-hibernate",
    keybind := some "h", confirm := false, danger := false }

def reboot_action : ActionConfig :=
  { name := "Reboot", command := "systemctl reboot", icon := "system-reboot",
    keybind := some "r", confirm := true, danger := true }

def shutdown_action : ActionConfig :=
  { name := "Shutdown", command := "systemctl poweroff", icon := "system-shutdown",
    keybind := some "p", confirm := true, danger := true }

def default_actions : List ActionConfig :=
  [lock_action, logout_action, suspend_action, hibernate_action, reboot_action, shutdown_action]

/-- An action whose configured keybind is the literal name of the
escape key. -/
def escape_bound_action : ActionConfig :=
  { name := "Shadow", command := "notify-send shadowed", icon := "dialog-warning",
    keybind := some "Escape", confirm := false, danger := false }

/-- An inert external world: no files, no parses, failing commands. -/
def empty_env : Env :=
  { file_exists := fun _ => false
    read_file := fun _ => none
    parse_json := fun _ => none
    sh_output := fun _ => { success := false, stdout := none, stderr := "" } }

def file_config_no_path : ThemeConfig :=
  { source := "file", manual_colors := none, file_path := none,
    command := none, watch_file := false }

def manual_config_no_colors : ThemeConfig :=
  { source := "manual", manual_colors := none, file_path := none,
    command := none, watch_file := false }

def command_config_no_command : ThemeConfig :=
  { source := "command", manual_colors := none, file_path := none,
    command := none, watch_file := false }

/-- Is a resolution result the FileNotFound error? -/
def resolution_is_file_not_found : Except ThemeError ThemeColors → Bool
  | .error (.FileNotFound _) => true
  | _ => false

/-! ## C1: the reserved escape key -/

/-- C1, counterexample: the claim says the reserved cancel/close key
is checked independently of the action scan and cannot be shadowed by
configuration.  It is false: the handler scans the configured actions
first, so an action whose keybind is the literal "Escape" captures the
escape key press and executes, and the press does not terminate. -/
theorem escape_shadowed_counterexample :
    key_pressed_handler [escape_bound_action] { name := some "Escape", is_escape := true } =
      { outcome := .Execute escape_bound_action, executed := [escape_bound_action] } ∧
    (key_pressed_handler [escape_bound_action]
        { name := some "Escape", is_escape := true }).outcome ≠ .Terminate := by
  constructor
  · decide
  · decide

/-- C1, amended: dispatching the escape key yields Terminate whenever
no configured action keybind (lowercased) equals the lowercased key
name; the reserved-key rule is checked only after the action scan, so
an action configuring that literal shadows it. -/
theorem escape_terminates_when_unshadowed
    (actions : List ActionConfig) (key : Key)
    (hesc : key.is_escape = true)
    (hnoshadow : ∀ key_name, key.name = some key_name →
      find_binding actions (rust_to_lowercase key_name) = none) :
    key_pressed_handler actions key = { outcome := .Terminate, executed := [] } := by
  unfold key_pressed_handler
  cases hn : key.name with
  | none => simp [hesc]
  | some key_name => simp [hnoshadow key_name hn, hesc]

/-- C1 witness: with the default action list (which binds no variant
of "escape") the escape key press terminates. -/
theorem escape_terminates_when_unshadowed_witness :
    key_pressed_handler default_actions { name := some "Escape", is_escape := true } =
      { outcome := .Terminate, executed := [] } :=
  escape_terminates_when_unshadowed default_actions _ rfl
    (fun key_name h => by
      injection h with h
      subst h
      decide)

/-! ## C3: error kinds for configurations missing their source field -/

/-- C3, counterexample: the claim maps a file source missing its
required field to FileNotFound, but a file configuration carrying no
path fails with the distinct MissingFilePath error ("File path not
configured for file theme source"); FileNotFound ("Theme file does
not exist") is reserved for a configured path that does not exist. -/
theorem file_source_missing_path_counterexample :
    get_colors empty_env file_config_no_path = .error .MissingFilePath ∧
    resolution_is_file_not_found (get_colors empty_env file_config_no_path) = false := by
  constructor
  · rfl
  · rfl

/-- C3, amended: a manual source carrying no color set fails with
MissingManualColors, a file source carrying no path fails with
MissingFilePath, a file source whose configured path does not exist
fails with FileNotFound, and a command source with no command string
fails with MissingCommand. -/
theorem missing_field_error_kinds (env : Env) (config : ThemeConfig) :
    (config.source = "manual" → config.manual_colors = none →
      get_colors env config = .error .MissingManualColors) ∧
    (config.source = "file" → config.file_path = none →
      get_colors env config = .error .MissingFilePath) ∧
    (∀ path, config.source = "file" → config.file_path = some path →
      env.file_exists path = false →
      get_colors env config = .error (.FileNotFound path)) ∧
    (config.source = "command" → config.command = none →
      get_colors env config = .error .MissingCommand) := by
  refine ⟨?_, ?_, ?_, ?_⟩
  · intro hs hm
    simp [get_colors, hs, get_manual_colors, hm]
  · intro hs hp
    simp [get_colors, hs, get_file_colors, hp]
  · intro path hs hp hex
    simp [get_colors, hs, get_file_colors, hp, hex]
  · intro hs hc
    simp [get_colors, hs, get_command_colors, hc]

/-- C3 witness: the three missing-field configurations and a
nonexistent-path configuration, resolved in the inert environment. -/
theorem missing_field_error_kinds_witness :
    get_colors empty_env manual_config_no_colors = .error .MissingManualColors ∧
    get_colors empty_env file_config_no_path = .error .MissingFilePath ∧
    get_colors empty_env { file_config_no_path with file_path := some "/tmp/nope" } =
      .error (.FileNotFound "/tmp/nope") ∧
    get_colors empty_env command_config_no_command = .error .MissingCommand :=
  ⟨(missing_field_error_kinds empty_env manual_config_no_colors).1 rfl rfl,
   (missing_field_error_kinds empty_env file_config_no_path).2.1 rfl rfl,
   (missing_field_error_kinds empty_env _).2.2.1 "/tmp/nope" rfl rfl rfl,
   (missing_field_error_kinds empty_env command_config_no_command).2.2.2 rfl rfl⟩

/-! ## C5: confirm-requiring actions are never executed by the dispatcher -/

/-- C5: when the (lowercased) key name matches, first in configured
order, an action whose confirm flag is set, the key handler outcome is
RequestConfirmation for that action and the handler passes nothing to
execute_action. -/
theorem confirm_dispatch_requests_confirmation
    (actions : List ActionConfig) (key : Key) (key_name : String) (action : ActionConfig)
    (hname : key.name = some key_name)
    (hfind : find_binding actions (rust_to_lowercase key_name) = some action)
    (hconfirm : action.confirm = true) :
    key_pressed_handler actions key =
      { outcome := .RequestConfirmation action, executed := [] } := by
  unfold key_pressed_handler
  simp [hname, hfind, hconfirm]

/-- C5 witness: key "E" (normalized "e") matches the default Logout
action, which requires confirmation. -/
theorem confirm_dispatch_requests_confirmation_witness :
    key_pressed_handler default_actions { name := some "E", is_escape := false } =
      { outcome := .RequestConfirmation logout_action, executed := [] } :=
  confirm_dispatch_requests_confirmation default_actions _ "E" logout_action rfl
    (by decide) rfl

/-! ## C7: the line-based parser on the reference input -/

/-- C7: on the input "# comment\nprimary = \"#fff\"\nbogus=ignored\n"
(which fails structured parsing) the line parser resolves primary to
"#fff", keeps every other field at the built-in default, and the
unrecognized key bogus sets no field. -/
theorem line_parser_example :
    extract_colors none "# comment\nprimary = \"#fff\"\nbogus=ignored\n" =
      { background := "rgba(30, 30, 46, 0.8)", primary := "#fff",
        secondary := "#74c7ec", text := "#cdd6f4", danger := "#f38ba8" } := by
  decide

/-! ## C8: the confirmation gate sequences -/

/-- C8: requesting confirmation then cancelling executes nothing;
requesting confirmation then confirming executes exactly the pending
action, once.  The two single transitions through the awaiting state
are also recorded. -/
theorem confirmation_gate_sequences (action : ActionConfig) :
    gate_step .Idle (.RequestConfirmation action) = (.AwaitingConfirmation action, []) ∧
    gate_step (.AwaitingConfirmation action) .Cancel = (.Idle, []) ∧
    gate_step (.AwaitingConfirmation action) .Confirm = (.Idle, [action]) ∧
    gate_run [.RequestConfirmation action, .Cancel] = (.Idle, []) ∧
    gate_run [.RequestConfirmation action, .Confirm] = (.Idle, [action]) := by
  refine ⟨rfl, rfl, rfl, rfl, rfl⟩

/-! ## C9: the action executor -/

/-- C9: executing an action spawns exactly its command string through
the shell, once (no retry, no fallback); a successful spawn signals
application termination with outcome success; a failed spawn yields
Failed with the spawn error and does not terminate the run. -/
theorem execute_action_spec (spawn : String → Except String Unit) (action : ActionConfig) :
    (execute_action spawn action).spawned = [action.command] ∧
    (∀ u, spawn action.command = .ok u →
      (execute_action spawn action).quit = true ∧
      (execute_action spawn action).outcome = .success) ∧
    (∀ e, spawn action.command = .error e →
      (execute_action spawn action).quit = false ∧
      (execute_action spawn action).outcome = .Failed e) := by
  unfold execute_action
  cases h : spawn action.command <;> simp

/-- C9 witness: a successful spawn of the Lock action quits; a spawn
failure on a deliberately invalid command yields Failed and does not
quit. -/
theorem execute_action_spec_witness :
    ((execute_action (fun _ => .ok ()) lock_action).quit = true ∧
      (execute_action (fun _ => .ok ()) lock_action).outcome = .success) ∧
    ((execute_action (fun _ => .error "No such file or directory")
        { lock_action with command := "/definitely/not/a/command" }).quit = false ∧
      (execute_action (fun _ => .error "No such file or directory")
        { lock_action with command := "/definitely/not/a/command" }).outcome =
          .Failed "No such file or directory") :=
  ⟨(execute_action_spec (fun _ => .ok ()) lock_action).2.1 () rfl,
   (execute_action_spec (fun _ => .error "No such file or directory") _).2.2
     "No such file or directory" rfl⟩

/-! ## C6: nested-export candidate-key priority -/

/-- extract_color is the first-wins scan over the candidate keys:
the first key that resolves (to a direct string value or to the hex
string of a nested object) supplies the color, and the default is
used only when no key resolves. -/
theorem extract_color_eq_findSome (json : Json) (keys : List String) (dflt : String) :
    extract_color json keys dflt = (keys.findSome? (resolve_key json)).getD dflt := by
  induction keys with
  | nil => rfl
  | cons k ks ih =>
    simp only [extract_color, List.findSome?_cons]
    cases resolve_key json k <;> simp [ih]

/-- The parsed form of the reference input text
"\x7b\"colors\":\x7b\"primary\":\"#abc\",\"surface\":\"#111\"\x7d\x7d". -/
def c6_json : Json :=
  .obj [("colors", .obj [("primary", .str "#abc"), ("surface", .str "#111")])]

/-- C6: on the reference nested export, background resolves to "#111"
(the candidate key surface is preferred, background being absent) and
primary resolves to "#abc"; in general the candidate keys are tried
in their listed order and the first that yields a direct string value
or a nested object with a hex string field wins, the default applying
only when none does. -/
theorem nested_export_priority :
    ((extract_colors (some c6_json)
        "\x7b\"colors\":\x7b\"primary\":\"#abc\",\"surface\":\"#111\"\x7d\x7d").background
      = "#111" ∧
     (extract_colors (some c6_json)
        "\x7b\"colors\":\x7b\"primary\":\"#abc\",\"surface\":\"#111\"\x7d\x7d").primary
      = "#abc") ∧
    ∀ (json : Json) (keys : List String) (dflt : String),
      extract_color json keys dflt = (keys.findSome? (resolve_key json)).getD dflt := by
  refine ⟨⟨rfl, rfl⟩, extract_color_eq_findSome⟩

/-! ## C2: extraction totality and field defaulting

The five output fields, their candidate key lists, and what it means
for an input to supply a field value, stated from the source. -/

inductive ThemeField where
  | background
  | primary
  | secondary
  | text
  | danger
deriving DecidableEq

/-- Project one field of a ThemeColors record. -/
def ThemeColors.field : ThemeColors → ThemeField → String
  | c, .background => c.background
  | c, .primary => c.primary
  | c, .secondary => c.secondary
  | c, .text => c.text
  | c, .danger => c.danger

/-- The five built-in default literals as a record; the same literals
appear at every defaulting site of the source. -/
def builtin_defaults : ThemeColors :=
  { background := "rgba(30, 30, 46, 0.8)", primary := "#89b4fa",
    secondary := "#74c7ec", text := "#cdd6f4", danger := "#f38ba8" }

/-- The candidate key list of each field on the nested path
(src/theme/mod.rs lines 94-98). -/
def nested_keys : ThemeField → List String
  | .background => ["surface", "background"]
  | .primary => ["primary"]
  | .secondary => ["secondary", "tertiary"]
  | .text => ["on_surface", "on_background", "text"]
  | .danger => ["error", "danger"]

/-- The single key of each field on the flat path (src/theme/mod.rs
lines 105-109), which is also the recognized key of the line parser
(lines 150-154). -/
def flat_key : ThemeField → String
  | .background => "background"
  | .primary => "primary"
  | .secondary => "secondary"
  | .text => "text"
  | .danger => "danger"

def field_key_chars (f : ThemeField) : List Char := (flat_key f).toList

/-- A structured document supplies value v for field f: on the branch
parse_json_colors takes for it, some candidate key of f resolves to
v. -/
def json_provides (json : Json) (f : ThemeField) (v : String) : Prop :=
  match json.get "colors" with
  | some colors =>
    match colors.get "primary" with
    | some _ => ∃ k ∈ nested_keys f, resolve_key colors k = some v
    | none => resolve_key json (flat_key f) = some v
  | none => resolve_key json (flat_key f) = some v

/-- A raw line supplies value v for field f: its processed key is the
recognized key of f and its processed value is v. -/
def line_sets (line : List Char) (f : ThemeField) (v : String) : Prop :=
  ∃ value, line_binding line = some (field_key_chars f, value) ∧ v = String.mk value

/-- Unparseable text supplies value v for field f through some of its
lines. -/
def line_provides (content : String) (f : ThemeField) (v : String) : Prop :=
  ∃ line ∈ rust_lines content, line_sets line f v

/-- The input supplies value v for field f, on whichever of the two
extraction tiers runs. -/
def provides (parsed : Option Json) (content : String) (f : ThemeField) (v : String) : Prop :=
  match parsed with
  | some json => json_provides json f v
  | none => line_provides content f v

theorem extract_color_default_or_resolved (json : Json) (keys : List String) (dflt : String) :
    extract_color json keys dflt = dflt ∨
    ∃ k ∈ keys, resolve_key json k = some (extract_color json keys dflt) := by
  rw [extract_color_eq_findSome]
  cases h : keys.findSome? (resolve_key json) with
  | none => exact Or.inl rfl
  | some v => exact Or.inr (by simpa using List.exists_of_findSome?_eq_some h)

theorem parse_flat_colors_field (json : Json) (f : ThemeField) :
    (parse_flat_colors json).field f =
      extract_color json [flat_key f] (builtin_defaults.field f) := by
  cases f <;> rfl

theorem parse_json_colors_field_nested (json colors p : Json)
    (h1 : json.get "colors" = some colors) (h2 : colors.get "primary" = some p)
    (f : ThemeField) :
    (parse_json_colors json).field f =
      extract_color colors (nested_keys f) (builtin_defaults.field f) := by
  simp only [parse_json_colors, h1, h2]
  cases f <;> rfl

theorem set_recognized_field (colors : ThemeColors) (key value : List Char) (f : ThemeField) :
    (set_recognized colors key value).field f = colors.field f ∨
    (key = field_key_chars f ∧
      (set_recognized colors key value).field f = String.mk value) := by
  cases f <;>
    simp only [set_recognized, field_key_chars, flat_key, ThemeColors.field] <;>
    split_ifs <;> simp_all [ThemeColors.field]

theorem foldl_apply_line_field (lines : List (List Char)) (init : ThemeColors)
    (f : ThemeField) :
    (lines.foldl apply_line init).field f = init.field f ∨
      ∃ line ∈ lines, line_sets line f ((lines.foldl apply_line init).field f) := by
  induction lines generalizing init with
  | nil => exact Or.inl rfl
  | cons l ls ih =>
    rw [List.foldl_cons]
    rcases ih (apply_line init l) with h | ⟨line, hmem, hsets⟩
    · rw [h]
      cases hb : line_binding l with
      | none =>
        left
        simp [apply_line, hb]
      | some kv =>
        obtain ⟨key, value⟩ := kv
        rcases set_recognized_field init key value f with h2 | ⟨hk, h2⟩
        · left
          simp [apply_line, hb, h2]
        · right
          refine ⟨l, List.mem_cons_self _ _, value, ?_, ?_⟩
          · rw [hb, hk]
          · simp [apply_line, hb, h2]
    · exact Or.inr ⟨line, List.mem_cons_of_mem _ hmem, hsets⟩

/-- C2, counterexample: the claim says no field of an extraction
result is ever the empty string.  It is false on both tiers: the flat
structured document assigning the empty string to primary, and the
raw line "primary=" with an empty right-hand side, both produce an
empty primary field. -/
theorem extract_empty_field_counterexample :
    (extract_colors (some (.obj [("primary", .str "")]))
      "\x7b\"primary\":\"\"\x7d").primary = "" ∧
    (extract_colors none "primary=").primary = "" := by
  exact ⟨rfl, by decide⟩

/-- C2, amended: extraction is total (both parsing tiers are embedded
as the total functions the source defines, whose Rust Result has no
error path), and every field the input does not supply a value for is
the built-in default of that field, which is never the empty string; a
field the input does supply is taken verbatim and may be empty. -/
theorem extract_defaults_unless_provided (parsed : Option Json) (content : String)
    (f : ThemeField) :
    ((extract_colors parsed content).field f = builtin_defaults.field f ∨
      provides parsed content f ((extract_colors parsed content).field f)) ∧
    builtin_defaults.field f ≠ "" := by
  constructor
  · cases parsed with
    | none =>
      show (parse_simple_colors content).field f = _ ∨
        line_provides content f ((parse_simple_colors content).field f)
      unfold parse_simple_colors line_provides
      rcases foldl_apply_line_field (rust_lines content)
          { background := "rgba(30, 30, 46, 0.8)", primary := "#89b4fa",
            secondary := "#74c7ec", text := "#cdd6f4", danger := "#f38ba8" } f with h | h
      · left
        rw [h]
        cases f <;> rfl
      · exact Or.inr h
    | some json =>
      show (parse_json_colors json).field f = _ ∨
        json_provides json f ((parse_json_colors json).field f)
      cases h1 : json.get "colors" with
      | none =>
        have hflat : parse_json_colors json = parse_flat_colors json := by
          simp [parse_json_colors, h1]
        rw [hflat, parse_flat_colors_field]
        unfold json_provides
        rw [h1]
        rcases extract_color_default_or_resolved json [flat_key f]
            (builtin_defaults.field f) with h | h
        · exact Or.inl h
        · exact Or.inr (by simpa using h)
      | some colors =>
        cases h2 : colors.get "primary" with
        | none =>
          have hflat : parse_json_colors json = parse_flat_colors json := by
            simp [parse_json_colors, h1, h2]
          rw [hflat, parse_flat_colors_field]
          unfold json_provides
          simp only [h1, h2]
          rcases extract_color_default_or_resolved json [flat_key f]
              (builtin_defaults.field f) with h | h
          · exact Or.inl h
          · exact Or.inr (by simpa using h)
        | some p =>
          rw [parse_json_colors_field_nested json colors p h1 h2 f]
          unfold json_provides
          simp only [h1, h2]
          exact extract_color_default_or_resolved colors (nested_keys f)
            (builtin_defaults.field f)
  · cases f <;> decide

/-! ## C10: the built-in default palette is the same at every site -/

/-- The recognized keys of the line parser. -/
def recognized_key (key : List Char) : Bool :=
  key == "background".toList || key == "primary".toList || key == "secondary".toList ||
    key == "text".toList || key == "danger".toList

theorem set_recognized_unrecognized (colors : ThemeColors) (key value : List Char)
    (h : recognized_key key = false) : set_recognized colors key value = colors := by
  unfold recognized_key at h
  simp only [Bool.or_eq_false_iff, beq_eq_false_iff_ne, ne_eq] at h
  obtain ⟨⟨⟨⟨h1, h2⟩, h3⟩, h4⟩, h5⟩ := h
  unfold set_recognized
  rw [if_neg h1, if_neg h2, if_neg h3, if_neg h4, if_neg h5]

/-- Content none of whose lines carries a recognized binding. -/
def no_recognized_binding (content : String) : Bool :=
  (rust_lines content).all fun line =>
    (line_binding line).elim true fun kv => ! recognized_key kv.1

theorem foldl_apply_line_unrecognized (lines : List (List Char)) (init : ThemeColors)
    (h : lines.all (fun line => (line_binding line).elim true fun kv => ! recognized_key kv.1)
      = true) :
    lines.foldl apply_line init = init := by
  induction lines generalizing init with
  | nil => rfl
  | cons l ls ih =>
    rw [List.foldl_cons]
    simp only [List.all_cons, Bool.and_eq_true] at h
    have hstep : apply_line init l = init := by
      unfold apply_line
      cases hb : line_binding l with
      | none => rfl
      | some kv =>
        have hr : recognized_key kv.1 = false := by
          have := h.1
          rw [hb] at this
          simpa using this
        exact set_recognized_unrecognized init kv.1 kv.2 hr
    rw [hstep]
    exact ih init h.2

def system_config : ThemeConfig :=
  { source := "system", manual_colors := none, file_path := none,
    command := none, watch_file := false }

/-- C10: the compiled-in ManualColors defaults, the system-source
result, the per-field defaults of both structured extraction branches
(exercised by an empty object and by a nested export none of whose
candidate keys resolves), and the initial fields of the line parser
are one and the same palette. -/
theorem builtin_defaults_agree :
    theme_colors_of_manual ManualColors.default = builtin_defaults ∧
    get_colors empty_env system_config = .ok builtin_defaults ∧
    parse_json_colors (.obj []) = builtin_defaults ∧
    parse_json_colors (.obj [("colors", .obj [("primary", .num 0)])]) = builtin_defaults ∧
    ∀ content : String, no_recognized_binding content = true →
      parse_simple_colors content = builtin_defaults := by
  refine ⟨rfl, rfl, rfl, rfl, ?_⟩
  intro content h
  exact foldl_apply_line_unrecognized (rust_lines content) _ h

/-- C10 witness: text with no recognized line yields the palette. -/
theorem builtin_defaults_agree_witness :
    parse_simple_colors "hello world\nnot a binding\n" = builtin_defaults :=
  builtin_defaults_agree.2.2.2.2 "hello world\nnot a binding\n" (by decide)

/-! ## C4: the grid layout partition

The reference partition: consecutive chunks of size d + 1, the final
chunk possibly shorter.  The loop of create_grid_layout is proved to
produce exactly this partition whenever the column count is
positive. -/

def chunksPos (d : Nat) : List α → List (List α)
  | [] => []
  | a :: rest => ((a :: rest).take (d + 1)) :: chunksPos d ((a :: rest).drop (d + 1))
termination_by l => l.length
decreasing_by simp [List.length_drop]; omega

theorem chunksPos_expand (d : Nat) (l : List α) (h : l ≠ []) :
    chunksPos d l = (l.take (d + 1)) :: chunksPos d (l.drop (d + 1)) := by
  cases l with
  | nil => exact absurd rfl h
  | cons x rest => rw [chunksPos]

theorem chunksPos_eq_nil_iff (d : Nat) (l : List α) : chunksPos d l = [] ↔ l = [] := by
  cases l with
  | nil => simp [chunksPos]
  | cons x rest => rw [chunksPos]; simp

theorem getLastD_irrel (l : List α) (x y : α) (h : l ≠ []) :
    l.getLastD x = l.getLastD y := by
  cases l with
  | nil => exact absurd rfl h
  | cons b bs => rw [List.getLastD_cons, List.getLastD_cons]

theorem chunksPos_snoc_aux (d : Nat) (a : α) :
    ∀ (n : Nat) (l : List α), l.length ≤ n →
      chunksPos d (l ++ [a]) =
        if l.length % (d + 1) = 0 then chunksPos d l ++ [[a]]
        else (chunksPos d l).dropLast ++ [(chunksPos d l).getLastD [] ++ [a]] := by
  intro n
  induction n with
  | zero =>
    intro l hl
    have hnil : l = [] := List.length_eq_zero.mp (Nat.le_zero.mp hl)
    subst hnil
    simp [chunksPos, chunksPos_expand]
  | succ n ih =>
    intro l hl
    cases l with
    | nil => simp [chunksPos, chunksPos_expand]
    | cons x rest =>
      rw [List.length_cons] at hl
      by_cases hlen : rest.length + 1 ≤ d
      · have htake : List.take (d + 1) (x :: (rest ++ [a])) = x :: (rest ++ [a]) :=
          List.take_of_length_le (by simp; omega)
        have hdrop : List.drop (d + 1) (x :: (rest ++ [a])) = [] :=
          List.drop_eq_nil_of_le (by simp; omega)
        have htake2 : List.take (d + 1) (x :: rest) = x :: rest :=
          List.take_of_length_le (by simp; omega)
        have hdrop2 : List.drop (d + 1) (x :: rest) = [] :=
          List.drop_eq_nil_of_le (by simp; omega)
        have hne : (x :: rest).length % (d + 1) ≠ 0 := by
          rw [Nat.mod_eq_of_lt (by simp; omega)]
          simp
        rw [if_neg hne, List.cons_append,
            chunksPos_expand d (x :: (rest ++ [a])) (by simp), htake, hdrop,
            chunksPos_expand d (x :: rest) (by simp), htake2, hdrop2]
        simp [chunksPos]
      · have hge : d + 1 ≤ (x :: rest).length := by simp; omega
        have htake : List.take (d + 1) ((x :: rest) ++ [a]) = List.take (d + 1) (x :: rest) :=
          List.take_append_of_le_length hge
        have hdrop : List.drop (d + 1) ((x :: rest) ++ [a]) =
            List.drop (d + 1) (x :: rest) ++ [a] :=
          List.drop_append_of_le_length hge
        rw [chunksPos_expand d ((x :: rest) ++ [a]) (by simp), htake, hdrop,
            chunksPos_expand d (x :: rest) (by simp)]
        have hlen2 : (List.drop (d + 1) (x :: rest)).length ≤ n := by
          simp [List.length_drop]
          omega
        rw [ih _ hlen2]
        have hmm : (List.drop (d + 1) (x :: rest)).length % (d + 1) =
            (x :: rest).length % (d + 1) := by
          rw [List.length_drop]
          conv_rhs => rw [show (x :: rest).length = (d + 1) + ((x :: rest).length - (d + 1))
            by simp; omega]
          rw [Nat.add_mod_left]
        rw [hmm]
        by_cases h0 : (x :: rest).length % (d + 1) = 0
        · rw [if_pos h0, if_pos h0, List.cons_append]
        · rw [if_neg h0, if_neg h0]
          have hdropne : List.drop (d + 1) (x :: rest) ≠ [] := by
            intro hc
            apply h0
            have hlc := congrArg List.length hc
            rw [List.length_drop] at hlc
            simp at hlc
            have hexact : (x :: rest).length = d + 1 := by simp; omega
            rw [hexact]
            simp
          have tne : chunksPos d (List.drop (d + 1) (x :: rest)) ≠ [] := by
            rw [ne_eq, chunksPos_eq_nil_iff]
            exact hdropne
          rw [List.dropLast_cons_of_ne_nil tne, List.getLastD_cons,
              getLastD_irrel (chunksPos d (List.drop (d + 1) (x :: rest)))
                (List.take (d + 1) (x :: rest)) [] tne,
              List.cons_append]

theorem chunksPos_snoc (d : Nat) (l : List α) (a : α) :
    chunksPos d (l ++ [a]) =
      if l.length % (d + 1) = 0 then chunksPos d l ++ [[a]]
      else (chunksPos d l).dropLast ++ [(chunksPos d l).getLastD [] ++ [a]] :=
  chunksPos_snoc_aux d a l.length l le_rfl

/-- grid_step on a live state, as one equation. -/
theorem grid_step_some (columns : Nat) (rows : List (List α)) (cur : Nat) (a : α) :
    grid_step columns (some (rows, cur)) a =
      if columns = 0 then none
      else some
        ((if cur = 0 then rows ++ [[]] else rows).dropLast ++
          [(if cur = 0 then rows ++ [[]] else rows).getLastD [] ++ [a]],
         (cur + 1) % columns) := rfl

/-- With a positive column count the loop state after any prefix is
exactly the chunk partition of that prefix together with the length
of the prefix modulo the column count. -/
theorem grid_state_eq (d : Nat) (l : List α) :
    l.foldl (grid_step (d + 1)) (some ([], 0)) =
      some (chunksPos d l, l.length % (d + 1)) := by
  induction l using List.reverseRecOn with
  | nil => simp [chunksPos]
  | append_singleton l a ih =>
    rw [List.foldl_append, ih, List.foldl_cons, List.foldl_nil, grid_step_some,
      if_neg (Nat.succ_ne_zero d), chunksPos_snoc]
    by_cases h0 : l.length % (d + 1) = 0
    · rw [if_pos h0, if_pos h0, List.dropLast_concat, List.getLastD_concat,
        List.nil_append, Nat.mod_add_mod]
      simp
    · rw [if_neg h0, if_neg h0, Nat.mod_add_mod]
      simp

theorem chunksPos_join (d : Nat) :
    ∀ (n : Nat) (l : List α), l.length ≤ n → (chunksPos d l).flatten = l := by
  intro n
  induction n with
  | zero =>
    intro l hl
    have hnil : l = [] := List.length_eq_zero.mp (Nat.le_zero.mp hl)
    subst hnil
    simp [chunksPos]
  | succ n ih =>
    intro l hl
    cases l with
    | nil => simp [chunksPos]
    | cons x rest =>
      rw [List.length_cons] at hl
      rw [chunksPos_expand d (x :: rest) (by simp), List.flatten_cons,
        ih _ (by simp [List.length_drop]; omega), List.take_append_drop]

theorem chunksPos_length (d : Nat) :
    ∀ (n : Nat) (l : List α), l.length ≤ n →
      (chunksPos d l).length = (l.length + d) / (d + 1) := by
  intro n
  induction n with
  | zero =>
    intro l hl
    have hnil : l = [] := List.length_eq_zero.mp (Nat.le_zero.mp hl)
    subst hnil
    simp [chunksPos, Nat.div_eq_of_lt (show d < d + 1 by omega)]
  | succ n ih =>
    intro l hl
    cases l with
    | nil => simp [chunksPos, Nat.div_eq_of_lt (show d < d + 1 by omega)]
    | cons x rest =>
      rw [List.length_cons] at hl
      rw [chunksPos_expand d (x :: rest) (by simp), List.length_cons,
        ih _ (by simp [List.length_drop]; omega), List.length_drop, List.length_cons]
      by_cases hge : d + 1 ≤ rest.length + 1
      · conv_rhs => rw [show rest.length + 1 + d = (rest.length + 1 - (d + 1) + d) + (d + 1)
          by omega]
        rw [Nat.add_div_right _ (by omega)]
      · have h1 : rest.length + 1 - (d + 1) = 0 := by omega
        rw [h1]
        rw [Nat.div_eq_of_lt (by omega)]
        conv_rhs => rw [show rest.length + 1 + d = rest.length + (d + 1) by omega]
        rw [Nat.add_div_right _ (by omega), Nat.div_eq_of_lt (by omega)]

theorem chunksPos_mem_length (d : Nat) :
    ∀ (n : Nat) (l : List α), l.length ≤ n →
      ∀ r ∈ chunksPos d l, 1 ≤ r.length ∧ r.length ≤ d + 1 := by
  intro n
  induction n with
  | zero =>
    intro l hl r hr
    have hnil : l = [] := List.length_eq_zero.mp (Nat.le_zero.mp hl)
    subst hnil
    simp [chunksPos] at hr
  | succ n ih =>
    intro l hl r hr
    cases l with
    | nil => simp [chunksPos] at hr
    | cons x rest =>
      rw [List.length_cons] at hl
      rw [chunksPos_expand d (x :: rest) (by simp)] at hr
      rcases List.mem_cons.mp hr with h | h
      · subst h
        constructor
        · simp [List.length_take]
        · simp [List.length_take]
      · exact ih _ (by simp [List.length_drop]; omega) r h

theorem chunksPos_dropLast_length (d : Nat) :
    ∀ (n : Nat) (l : List α), l.length ≤ n →
      ∀ r ∈ (chunksPos d l).dropLast, r.length = d + 1 := by
  intro n
  induction n with
  | zero =>
    intro l hl r hr
    have hnil : l = [] := List.length_eq_zero.mp (Nat.le_zero.mp hl)
    subst hnil
    simp [chunksPos] at hr
  | succ n ih =>
    intro l hl r hr
    cases l with
    | nil => simp [chunksPos] at hr
    | cons x rest =>
      rw [List.length_cons] at hl
      rw [chunksPos_expand d (x :: rest) (by simp)] at hr
      by_cases hnil : chunksPos d (List.drop (d + 1) (x :: rest)) = []
      · rw [hnil] at hr
        simp at hr
      · rw [List.dropLast_cons_of_ne_nil hnil] at hr
        rcases List.mem_cons.mp hr with h | h
        · subst h
          have hdropne : List.drop (d + 1) (x :: rest) ≠ [] := by
            intro hc
            exact hnil (by rw [hc]; simp [chunksPos])
          have hge : d + 1 ≤ (x :: rest).length := by
            by_contra hcon
            exact hdropne (List.drop_eq_nil_of_le (by omega))
          rw [List.length_cons] at hge
          simp [List.length_take]
          omega
        · exact ih _ (by simp [List.length_drop]; omega) r h

/-- A grid layout configuration with the given column entry. -/
def grid_layout (columns : Option Nat) : LayoutConfig :=
  { layout_type := "grid", button_size := 80, button_spacing := 20, margin := 50,
    columns := columns }

/-- Seven concrete actions. -/
def seven_actions : List ActionConfig :=
  default_actions ++ [escape_bound_action]

/-- C4, counterexample: the claim gives the grid column count a
minimum effective value of 1, but with columns = 0 and a nonempty
action list the loop panics on the remainder by zero (modelled as
none) instead of clamping: no row partition is produced at all. -/
theorem grid_zero_columns_counterexample :
    create_grid_layout (grid_layout (some 0)) [lock_action] = none := by
  decide

/-- C4, amended: for every ordered action list and every grid column
count c (the configured value, or 3 when absent) with c ≥ 1, the grid
layout partitions the actions into consecutive rows of size c
preserving global order, the final row possibly shorter, with row
count ceil(n / c); no action is duplicated or dropped and the total
across all rows equals n — in particular 7 actions with columns = 3
yield rows of sizes [3, 3, 1].  The original minimum effective column
count of 1 does not hold: columns = 0 panics (see the
counterexample). -/
theorem grid_partition_spec :
    (∀ (layout : LayoutConfig) (actions : List ActionConfig),
      1 ≤ layout.columns.getD 3 →
      ∃ rows, create_grid_layout layout actions = some rows ∧
        rows.flatten = actions ∧
        rows.length =
          (actions.length + (layout.columns.getD 3 - 1)) / layout.columns.getD 3 ∧
        (∀ r ∈ rows.dropLast, r.length = layout.columns.getD 3) ∧
        (∀ r ∈ rows, 1 ≤ r.length ∧ r.length ≤ layout.columns.getD 3)) ∧
    (create_grid_layout (grid_layout (some 3)) seven_actions).map
        (fun rows => rows.map List.length) = some [3, 3, 1] := by
  constructor
  · intro layout actions hc
    cases hd : layout.columns.getD 3 with
    | zero =>
      rw [hd] at hc
      exact absurd hc (by omega)
    | succ d =>
      refine ⟨chunksPos d actions, ?_, ?_, ?_, ?_, ?_⟩
      · show Option.map Prod.fst
            (actions.foldl (grid_step (layout.columns.getD 3)) (some ([], 0))) =
          some (chunksPos d actions)
        rw [hd, grid_state_eq]
        rfl
      · exact chunksPos_join d actions.length actions le_rfl
      · rw [chunksPos_length d actions.length actions le_rfl]
        simp
      · exact chunksPos_dropLast_length d actions.length actions le_rfl
      · exact chunksPos_mem_length d actions.length actions le_rfl
  · decide

/-- C4 witness: the universal part applied to 7 actions with 3
columns. -/
theorem grid_partition_spec_witness :
    ∃ rows, create_grid_layout (grid_layout (some 3)) seven_actions = some rows ∧
      rows.flatten = seven_actions ∧
      rows.length = (seven_actions.length + ((grid_layout (some 3)).columns.getD 3 - 1)) /
        (grid_layout (some 3)).columns.getD 3 ∧
      (∀ r ∈ rows.dropLast, r.length = (grid_layout (some 3)).columns.getD 3) ∧
      (∀ r ∈ rows, 1 ≤ r.length ∧ r.length ≤ (grid_layout (some 3)).columns.getD 3) :=
  grid_partition_spec.1 (grid_layout (some 3)) seven_actions (by decide)

end Departure
